import Mathlib

/-!
Shallow embedding of PyZwaver's codec and secure-transport core
(`pyzwaver/command.py`, `pyzwaver/zsecurity.py`) together with theorems
about the properties claimed for it.

Conventions used throughout:
* Python byte lists are `List Nat` (each element a byte value; Python never
  range-checks them in this code).
* Python's arbitrary-precision signed `int` is `Int` where signs can occur,
  `Nat` where the source only ever produces non-negative values.
* A Python function that can raise an uncaught exception is embedded with
  result type `Except PyErr _`; the sentinel value `None` that the parsers
  return *deliberately* on a checked failure is kept distinct from an
  exception (it becomes a `PV.pyNone` value, or `Option.none` for
  `Crypter.Unwrap` / `SecureQueue.ProcessReceivedNonce`).
* The AES-128 block cipher (`Crypto.Cipher.AES`, an external library) is an
  uninterpreted parameter `F : List Nat → List Nat → List Nat`, where
  `F key block` stands for `AES.new(bytes(key)).encrypt(bytes(block))`.
  Real AES always maps a 16-byte block to a 16-byte block; theorems that
  need this carry it as the hypothesis `∀ k b, (F k b).length = 16`.
-/

namespace PyZwaver

/-- Uncaught Python exceptions that the embedded code can raise. -/
inductive PyErr where
  | indexError
  | typeError
  | keyError
  | assertError
  | nameError
deriving DecidableEq

/-- Python list indexing `m[i]` for a non-negative index: raises
`IndexError` when out of range. -/
def pyGet (m : List Nat) (i : Nat) : Except PyErr Nat :=
  if h : i < m.length then .ok (m.get ⟨i, h⟩) else .error .indexError

/-- Python negative indexing `m[-k]` (`k > 0`): element `len(m) - k`,
`IndexError` when the list is shorter than `k`. -/
def pyGetNeg (m : List Nat) (k : Nat) : Except PyErr Nat :=
  if m.length < k then .error .indexError else .ok (m.getD (m.length - k) 0)

/-- Python slice `m[a:b]` for non-negative bounds: never raises, clamps to
the list. -/
def pySlice (m : List Nat) (a b : Nat) : List Nat :=
  (m.drop a).take (b - a)

/-! ## zsecurity.py — module constants -/

/-- `_AUTH_SECRET = [0x55] * 16`. -/
def AUTH_SECRET : List Nat := List.replicate 16 0x55

/-- `_CRYPT_SECRET = [0xaa] * 16`. -/
def CRYPT_SECRET : List Nat := List.replicate 16 0xaa

/-! ## zsecurity.py — Crypt and ComputeMAC -/

/-- The loop body of `Crypt`: for each data byte at overall position `i`,
the 16-byte cipher state `iv` is re-encrypted whenever `i % 16 == 0` and the
byte is XORed with `iv[i % 16]`.  AES output is always 16 bytes, so the
index is in range; it is embedded with `getD`. -/
def cryptGo (E : List Nat → List Nat) : List Nat → List Nat → Nat → List Nat
  | [], _, _ => []
  | d :: ds, iv, i =>
    let iv' := if i % 16 = 0 then E iv else iv
    (d ^^^ iv'.getD (i % 16) 0) :: cryptGo E ds iv' (i + 1)

/-- `Crypt(key, data, iv_orig)` from zsecurity.py: keystream construction,
state seeded with the IV and re-encrypted at each 16-byte boundary, XORed
bytewise into the data.  The source's `assert len(iv_orig) == 16` is
carried as a hypothesis by the theorems below. -/
def Crypt (F : List Nat → List Nat → List Nat) (key data iv : List Nat) :
    List Nat :=
  cryptGo (F key) data iv 0

/-- The `for x in range(0, len(header) + len(data), 16)` loop of
`ComputeMAC`: `k` counts the remaining iterations, `x` is the running block
offset; each step XORs the 16-byte buffer block at `x` into the auth state
and re-encrypts it.  `buf` always holds at least `x + 16` bytes (it is
padded with 16 zeros), and the AES state is 16 bytes, so `zipWith`
truncates nothing. -/
def macGo (E : List Nat → List Nat) (buf : List Nat) :
    Nat → List Nat → Nat → List Nat
  | 0, auth, _ => auth
  | k + 1, auth, x =>
      macGo E buf k (E (List.zipWith (· ^^^ ·) auth (pySlice buf x (x + 16)))) (x + 16)

/-- `ComputeMAC(key, data, iv, sub_command, src_node, dst_node)` from
zsecurity.py: keyed chained digest over
`header(4) ‖ data`, zero-padded; state starts as the encryption of the IV;
first 8 bytes of the final state are the tag.  The source's
`assert len(iv) == 16` is carried as a hypothesis by the theorems below. -/
def ComputeMAC (F : List Nat → List Nat → List Nat)
    (key data iv : List Nat) (sub_command src_node dst_node : Nat) :
    List Nat :=
  let header : List Nat := [sub_command, src_node, dst_node, data.length]
  let buf := header ++ data ++ List.replicate 16 0
  let E := F key
  (macGo E buf ((header.length + data.length + 15) / 16) (E iv) 0).take 8

/-! ## zsecurity.py — Crypter -/

/-- The state `Crypter.__init__` stores: the auth and crypt keys derived by
encrypting the two fixed secrets under the network key
(`assert len(key) == 16` is carried as a hypothesis where it matters). -/
structure CrypterObj where
  auth_key : List Nat
  crypt_key : List Nat
deriving DecidableEq

/-- `Crypter(key)`: derive the two session keys from the network key. -/
def MakeCrypter (F : List Nat → List Nat → List Nat) (key : List Nat) :
    CrypterObj :=
  ⟨F key AUTH_SECRET, F key CRYPT_SECRET⟩

/-- `Crypter.Wrap(payload, nonce, random, sub_command, src_node, dst_node)`:
asserts the 8-byte lengths, builds `iv = random + nonce`, prepends the zero
sequence byte, encrypts, MACs the ciphertext, and returns
`iv[0:8] + enc + [nonce[0]] + mac`. -/
def Crypter.Wrap (F : List Nat → List Nat → List Nat) (c : CrypterObj)
    (payload nonce random : List Nat) (sub_command src_node dst_node : Nat) :
    Except PyErr (List Nat) :=
  if random.length = 8 ∧ nonce.length = 8 then
    let iv := random ++ nonce
    let plain := 0 :: payload
    let enc := Crypt F c.crypt_key plain iv
    let mac := ComputeMAC F c.auth_key enc iv sub_command src_node dst_node
    .ok (pySlice iv 0 8 ++ enc ++ [nonce.getD 0 0] ++ mac)
  else .error .assertError

/-- `Crypter.Unwrap(wrapped, nonce, sub_command, src_node, dst_node)`:
reconstructs the IV from the first 8 bytes and the expected nonce, checks
the echoed nonce byte `wrapped[-9]`, recomputes and compares the MAC
(byte-by-byte over `zip`, which truncates like Python's), then decrypts and
strips the leading sequence byte.  The explicit `return None` failures are
`Option.none`. -/
def Crypter.Unwrap (F : List Nat → List Nat → List Nat) (c : CrypterObj)
    (wrapped nonce : List Nat) (sub_command src_node dst_node : Nat) :
    Except PyErr (Option (List Nat)) := do
  let enc_size := wrapped.length - 17
  let iv := pySlice wrapped 0 8 ++ nonce
  let enc := pySlice wrapped 8 (8 + enc_size)
  let mac_expected := wrapped.drop (wrapped.length - 8)
  let e ← pyGetNeg wrapped 9
  let n0 ← pyGet nonce 0
  if e ≠ n0 then pure none
  else
    let mac_actual := ComputeMAC F c.auth_key enc iv sub_command src_node dst_node
    if (mac_actual.zip mac_expected).any (fun p => p.1 != p.2) then pure none
    else pure (some ((Crypt F c.crypt_key enc iv).drop 1))

/-! ## zsecurity.py — SecureQueue -/

/-- Modelled from the spec: numeric command-class / command constants from
`pyzwaver/zwave.py` ("z"), which is not under src/.  The glossary calls
Security the command class and `MessageEncap` the encrypted-transport
wrapper; the concrete numbers are immaterial to every theorem below. -/
def Security : Nat := 0x98

/-- Modelled from the spec: the envelope (MessageEncap) command id,
see `Security`. -/
def Security_MessageEncap : Nat := 0x81

/-- Modelled from the spec: the key-rotation (NetworkKeySet) command id,
see `Security`. -/
def Security_NetworkKeySet : Nat := 0x06

/-- The attribute record of a `SecureQueue` object: the outbound FIFO of
plain commands, the crypter assigned by `SetKey` (`self._crypter`), and the
outbound-nonce state.  (`SecureQueue.__init` is misspelled in the source —
it is not Python's `__init__` — so no constructor is modelled; the methods
below act on an arbitrary attribute record.) -/
structure SecureQueue where
  queue : List (List Nat)
  crypter : CrypterObj
  nonce_outbound : List Nat
  nonce_outbound_requested : Bool
  node : Nat
  controller_node : Nat
deriving DecidableEq

/-- `SecureQueue.EnqueueMessage(message)`: `self._queue.append(message)`. -/
def SecureQueue.EnqueueMessage (s : SecureQueue) (message : List Nat) :
    SecureQueue :=
  { s with queue := s.queue ++ [message] }

/-- `SecureQueue.SetKey(key)`: the source executes
`self._crypter = _Crypter(key)`, but no `_Crypter` is defined anywhere in
the module (the class is named `Crypter`), so the call raises `NameError`
unconditionally. -/
def SecureQueue.SetKey (_s : SecureQueue) (_key : List Nat) :
    Except PyErr SecureQueue :=
  .error .nameError

/-- `SecureQueue.ProcessReceivedNonce(nonce)`: stores the nonce, then
`if len(self._queue) != 0: return None` — so whenever the queue is
NON-empty the call returns `None` without touching the queue; when the
queue IS empty it falls through to `self._queue.pop(0)`, which raises
`IndexError` on the empty list.  Lines 157–167 of the source (assemble,
wrap, conditional `SetKey`, envelope return) are therefore unreachable and
are subsumed by the `IndexError` outcome. -/
def SecureQueue.ProcessReceivedNonce (s : SecureQueue) (nonce : List Nat) :
    Except PyErr (SecureQueue × Option (List Nat)) :=
  let s1 := { s with nonce_outbound := nonce }
  if s1.queue ≠ [] then .ok (s1, none)
  else .error .indexError

/-! ## command.py — value model

Python values flowing out of the per-type decoders: `None` (the failure
sentinel), ints, floats (always an exact mantissa / 10^exp quotient here,
embedded as `ℚ`), lists of byte values, bit-index sets (embedded as the
ascending list of members), association-group triple lists, and string-keyed
dicts whose values are scalars or byte lists. -/

/-- A value stored inside one of the small dicts the decoders build. -/
inductive PVF where
  | int (n : Int)
  | rat (q : ℚ)
  | nats (xs : List Nat)
deriving DecidableEq

/-- A decoded field value. -/
inductive PV where
  | pyNone
  | int (n : Int)
  | nats (xs : List Nat)
  | bits (xs : List Nat)
  | groups (xs : List (Nat × Nat × Nat))
  | dict (kvs : List (String × PVF))
deriving DecidableEq

/-- Insertion-ordered dict write `d[k] = v`: overwrite in place if the key
exists, else append. -/
def dictSet (d : List (String × PV)) (k : String) (v : PV) :
    List (String × PV) :=
  if d.any (fun p => p.1 == k) then
    d.map (fun p => if p.1 == k then (k, v) else p)
  else d ++ [(k, v)]

/-- Dict read `d[k]`: `KeyError` when absent. -/
def dictGet (d : List (String × PV)) (k : String) : Except PyErr PV :=
  match d.find? (fun p => p.1 == k) with
  | some p => .ok p.2
  | none => .error .keyError

/-- Read of a key inside a field-value dict, `KeyError` when absent. -/
def pvfGet (d : List (String × PVF)) (k : String) : Except PyErr PVF :=
  match d.find? (fun p => p.1 == k) with
  | some p => .ok p.2
  | none => .error .keyError

/-- Python `k in d` for a field-value dict. -/
def pvfHas (d : List (String × PVF)) (k : String) : Bool :=
  d.any (fun p => p.1 == k)

/-! ## command.py — decoders -/

/-- `_GetSignedValue(data)`: intended two's-complement MSB-first decode,
but the negative branch adds Python's `~d` — which is `-(d + 1)`, not the
byte complement `0xFF - d` — so negative multi-byte values come out wrong.
`data[0]` raises `IndexError` on an empty mantissa. -/
def GetSignedValue (data : List Nat) : Except PyErr Int :=
  match data with
  | [] => .error .indexError
  | d0 :: _ =>
    let negative := d0 &&& 0x80 ≠ 0
    let value := data.foldl
      (fun v d => v * 256 + (if negative then -(d : Int) - 1 else (d : Int))) 0
    .ok (if negative then -(value + 1) else value)

/-- `_GetIntBigEndian(m)`. -/
def GetIntBigEndian (m : List Nat) : Nat :=
  m.foldl (fun x i => x * 256 + i) 0

/-- `_GetIntLittleEndian(m)`. -/
def GetIntLittleEndian (m : List Nat) : Nat :=
  m.foldr (fun i x => i + 256 * x) 0

/-- `_GetTimeDelta(m, index)`: both reads are guarded by the caller. -/
def GetTimeDelta (m : List Nat) (index : Nat) : Nat × Nat :=
  (index + 2, m.getD index 0 * 256 + m.getD (index + 1) 0)

/-- Result of one per-type decoder: either an uncaught exception, or the
Python pair `(new_index, value)` where `value = None` signals a checked
failure. -/
abbrev PRes := Except PyErr (Nat × PV)

/-- `_ParseByte`. -/
def ParseByte (m : List Nat) (index : Nat) : PRes :=
  if m.length ≤ index then .ok (index, .pyNone)
  else .ok (index + 1, .int (m.getD index 0))

/-- `_ParseWord`. -/
def ParseWord (m : List Nat) (index : Nat) : PRes :=
  if m.length ≤ index + 1 then .ok (index, .pyNone)
  else .ok (index + 2, .int (m.getD index 0 * 256 + m.getD (index + 1) 0))

/-- `_ParseName`: asserts `len(m) > index`, reads the 2-bit encoding
selector (an `IndexError` on the 3-entry decoder table when it is 3), then
rebinds `m = m[index + 1:]` and returns `len(m)` — the length of the
*sliced* list — as the new cursor.  The derived `"_decoded"` entry
(`bytes(m).decode(...)`, a pure function of encoding and text that can
itself raise `UnicodeDecodeError`) is omitted from the embedded record; no
theorem below touches it. -/
def ParseName (m : List Nat) (index : Nat) : PRes :=
  if m.length ≤ index then .error .assertError
  else
    let encoding := m.getD index 0 &&& 3
    if encoding ≥ 3 then .error .indexError
    else
      let rest := m.drop (index + 1)
      .ok (rest.length,
           .dict [("encoding", .int encoding), ("text", .nats rest)])

/-- `_ParseStringWithLength`: reads the length byte with NO bounds check
(`IndexError` past the end), and slices `m[index + 1 : size]` — the upper
bound is `size` itself, not `index + 1 + size`, exactly as in the source. -/
def ParseStringWithLength (m : List Nat) (index : Nat) : PRes := do
  let size ← pyGet m index
  .ok (1 + size + index, .nats (pySlice m (index + 1) size))

/-- `_ParseStringWithLengthAndEncoding`: reads the packed byte (no bounds
check) and returns `1 + size` — not `index + 1 + size` — as the cursor,
exactly as in the source. -/
def ParseStringWithLengthAndEncoding (m : List Nat) (index : Nat) : PRes := do
  let c ← pyGet m index
  let encoding := c >>> 5
  let size := c &&& 0x1f
  .ok (1 + size,
       .dict [("encoding", .int encoding),
              ("text", .nats (pySlice m (index + 1) (index + 1 + size)))])

/-- `_ParseListRest`: `size = len(m) - index`, so the new cursor
`index + size` is `len(m)`. -/
def ParseListRest (m : List Nat) (index : Nat) : PRes :=
  .ok (m.length, .nats (m.drop index))

/-- `_ExtractBitVector(data, offset)`: the Python `set` of bit indices,
embedded as the ascending list the nested loops enumerate. -/
def ExtractBitVector (data : List Nat) (offset : Nat) : List Nat :=
  (List.range data.length).flatMap (fun i =>
    (List.range 8).filterMap (fun j =>
      if data.getD i 0 &&& (1 <<< j) ≠ 0 then some (j + i * 8 + offset)
      else none))

/-- `_ParseGroups`: low 6 bits of the lead byte give the record count;
bounds-checked, then seven bytes per `(id, profile, event)` record. -/
def ParseGroups (m : List Nat) (index : Nat) : PRes := do
  let misc ← pyGet m index
  let count := misc &&& 0x3f
  if m.length < index + 1 + count * 7 then .ok (index, .pyNone)
  else
    let grp := (List.range count).map (fun i =>
      let base := index + 1 + i * 7
      (m.getD base 0,
       m.getD (base + 2) 0 * 256 + m.getD (base + 3) 0,
       m.getD (base + 5) 0 * 256 + m.getD (base + 6) 0))
    .ok (index + 1 + count * 7, .groups grp)

/-- `_ParseBitVector`: length-prefixed bitset (length byte unchecked). -/
def ParseBitVector (m : List Nat) (index : Nat) : PRes := do
  let size ← pyGet m index
  .ok (index + 1 + size,
       .bits (ExtractBitVector (pySlice m (index + 1) (index + 1 + size)) 0))

/-- `_ParseBitVectorRest`: consume-rest bitset. -/
def ParseBitVectorRest (m : List Nat) (index : Nat) : PRes :=
  .ok (m.length, .bits (ExtractBitVector (m.drop index) 0))

/-- `_ParseNonce`: fixed 8 bytes, bounds-checked. -/
def ParseNonce (m : List Nat) (index : Nat) : PRes :=
  if m.length < index + 8 then .ok (index, .pyNone)
  else .ok (index + 8, .nats (pySlice m index (index + 8)))

/-- `_ParseDataRest`. -/
def ParseDataRest (m : List Nat) (index : Nat) : PRes :=
  .ok (m.length, .nats (m.drop index))

/-- `_ParseRestLittleEndianInt`: `size = len(m) - index` is a Python int
and can be negative, hence the `Int`-valued `"size"` entry. -/
def ParseRestLittleEndianInt (m : List Nat) (index : Nat) : PRes :=
  .ok (m.length,
       .dict [("size", .int ((m.length : Int) - (index : Int))),
              ("value", .int (GetIntLittleEndian (m.drop index)))])

/-- `_ParseSensor`: needs two bytes, unpacks precision/scale/size; on an
incomplete mantissa the source `return index` yields a bare int, so the
caller's tuple unpacking raises `TypeError`. -/
def ParseSensor (m : List Nat) (index : Nat) : PRes :=
  if m.length < index + 2 then .ok (index, .pyNone)
  else
    let c := m.getD index 0
    let precision := (c >>> 5) &&& 7
    let scale := (c >>> 3) &&& 3
    let size := c &&& 7
    if m.length < index + 1 + size then .error .typeError
    else do
      let mantissa := pySlice m (index + 1) (index + 1 + size)
      let v ← GetSignedValue mantissa
      .ok (index + 1 + size,
           .dict [("exp", .int precision), ("scale", .int scale),
                  ("mantissa", .nats mantissa),
                  ("_value", .rat ((v : ℚ) / (10 : ℚ) ^ precision))])

/-- `_ParseValue`: reads the size byte with NO bounds check (`IndexError`
past the end); the mantissa slice is unchecked and silently short. -/
def ParseValue (m : List Nat) (index : Nat) : PRes := do
  let c ← pyGet m index
  let size := c &&& 0x7
  let start := index + 1
  .ok (index + 1 + size,
       .dict [("size", .int size),
              ("value", .int (GetIntBigEndian (pySlice m start (start + size))))])

/-- `_ParseMeter`: needs two header bytes; then
`if index + size >= len(m)` — `>=`, not `>` — rejects a mantissa that ends
exactly at the end of the message; a zero-size mantissa reaching
`_GetSignedValue` raises `IndexError`; optional time delta and second
mantissa are consumed greedily. -/
def ParseMeter (m : List Nat) (index : Nat) : PRes :=
  if index + 2 > m.length then .ok (index, .pyNone)
  else
    let c1 := m.getD index 0
    let unit_extra := (c1 &&& 0x80) >>> 7
    let ty := c1 &&& 0x1f
    let rate := (c1 &&& 0x60) >>> 5
    let c2 := m.getD (index + 1) 0
    let size := c2 &&& 0x7
    let unit := (c2 &&& 0x18) >>> 3 ||| unit_extra <<< 2
    let exp := (c2 &&& 0xe0) >>> 5
    let index := index + 2
    if index + size ≥ m.length then .ok (index, .pyNone)
    else do
      let mantissa := pySlice m index (index + size)
      let v ← GetSignedValue mantissa
      let index := index + size
      let base : List (String × PVF) :=
        [("type", .int ty), ("unit", .int unit), ("exp", .int exp),
         ("rate", .int rate), ("mantissa", .nats mantissa),
         ("_value", .rat ((v : ℚ) / (10 : ℚ) ^ exp))]
      let (index, withDt) :=
        if index + 2 ≤ m.length then
          let (index', dt) := GetTimeDelta m index
          (index', base ++ [("dt", PVF.int dt)])
        else (index, base)
      if index + size ≤ m.length then do
        let mantissa2 := pySlice m index (index + size)
        let v2 ← GetSignedValue mantissa2
        .ok (index + size,
             .dict (withDt ++ [("mantissa2", .nats mantissa2),
                               ("_value2", .rat ((v2 : ℚ) / (10 : ℚ) ^ exp))]))
      else .ok (index, .dict withDt)

/-- `_ParseDate`: seven bytes, bounds-checked — but the failure branch
`return len(m)` yields a bare int, so the caller's tuple unpacking raises
`TypeError`. -/
def ParseDate (m : List Nat) (index : Nat) : PRes :=
  if m.length < index + 7 then .error .typeError
  else
    .ok (index + 7,
         .nats [m.getD index 0 * 256 + m.getD (index + 1) 0,
                m.getD (index + 2) 0, m.getD (index + 3) 0,
                m.getD (index + 4) 0, m.getD (index + 5) 0,
                m.getD (index + 6) 0])

/-- `_PARSE_ACTIONS`: the type-tag dispatch table. -/
def PARSE_ACTIONS (kind : Char) : Option (List Nat → Nat → PRes) :=
  match kind with
  | 'A' => some ParseStringWithLength
  | 'F' => some ParseStringWithLengthAndEncoding
  | 'B' => some ParseByte
  | 'C' => some ParseDate
  | 'G' => some ParseGroups
  | 'N' => some ParseName
  | 'L' => some ParseListRest
  | 'R' => some ParseRestLittleEndianInt
  | 'W' => some ParseWord
  | 'V' => some ParseValue
  | 'M' => some ParseMeter
  | 'O' => some ParseNonce
  | 'D' => some ParseDataRest
  | 'T' => some ParseBitVector
  | 'U' => some ParseBitVectorRest
  | 'X' => some ParseSensor
  | _ => none

/-! ## command.py — ParseCommand -/

/-- One entry of a parse table: the source stores descriptor strings of
the form "k{name}" (`kind = t[0]`, `name = t[2:-1]`); the concrete strings
live in `pyzwaver/zwave.py`, which is not under src/, so descriptors are
embedded structurally. -/
structure FieldDescr where
  kind : Char
  name : String
deriving DecidableEq

/-- Modelled from the spec: `z.SUBCMD_TO_PARSE_TABLE` from
`pyzwaver/zwave.py` is not under src/; §4.1 of the spec makes it a static
map `(classId, cmdId) → descriptor sequence` whose lookup failure is a
first-class outcome (`None`), so it is embedded as a `Nat → Option _`
parameter keyed by `classId * 256 + cmdId`. -/
abbrev SubcmdTable := Nat → Option (List FieldDescr)

/-- `_GetParameterDescriptors(m)`: `None` for a command shorter than two
bytes, else the table lookup on `m[0] * 256 + m[1]`. -/
def GetParameterDescriptors (tbl : SubcmdTable) (m : List Nat) :
    Option (List FieldDescr) :=
  if m.length < 2 then none
  else tbl (m.getD 0 0 * 256 + m.getD 1 0)

/-- The three outcomes of `ParseCommand`: `[]` for an unknown command,
`None` for a malformed one, or the decoded dict. -/
inductive PCResult where
  | unknown
  | malformed
  | record (fields : List (String × PV))
deriving DecidableEq

/-- The `for t in table` loop of `ParseCommand`: dispatch on the type tag
(a missing tag would be a `KeyError` on `_PARSE_ACTIONS`), run the decoder,
store the value in the dict — the source assigns `out[name] = value`
*before* the `None` check — and abort with `None` on the failure
sentinel. -/
def parseFields (m : List Nat) :
    List FieldDescr → Nat → List (String × PV) → Except PyErr PCResult
  | [], _, out => .ok (.record out)
  | t :: ts, index, out =>
    match PARSE_ACTIONS t.kind with
    | none => .error .keyError
    | some p => do
      let (newIndex, value) ← p m index
      let out := dictSet out t.name value
      if value = PV.pyNone then .ok .malformed
      else parseFields m ts newIndex out

/-- `ParseCommand(m)`: table lookup, then the field loop starting at
cursor 2. -/
def ParseCommand (tbl : SubcmdTable) (m : List Nat) : Except PyErr PCResult :=
  match GetParameterDescriptors tbl m with
  | none => .ok .unknown
  | some table => parseFields m table 2 []

/-! ## command.py — AssembleCommand -/

/-- `_MakeDate(date)`: six list reads, `IndexError` when too short. -/
def MakeDate (v : List Nat) : Except PyErr (List Nat) :=
  if v.length < 6 then .error .indexError
  else .ok [v.getD 0 0 / 256, v.getD 0 0 % 256, v.getD 1 0, v.getD 2 0,
            v.getD 3 0, v.getD 4 0, v.getD 5 0]

/-- Coerce a dict entry that the source uses as an int; a wrong shape is a
Python `TypeError` at the arithmetic.  The encoders only ever meet
non-negative ints (field values are bytes/packed fields), embedded via
`Int.toNat`. -/
def pvfInt (v : PVF) : Except PyErr Nat :=
  match v with
  | .int n => .ok n.toNat
  | _ => .error .typeError

/-- Coerce a dict entry that the source uses as a byte list. -/
def pvfNats (v : PVF) : Except PyErr (List Nat) :=
  match v with
  | .nats xs => .ok xs
  | _ => .error .typeError

/-- `_MakeSensor(args)`: pack precision/scale/size into one byte, append
the mantissa. -/
def MakeSensor (kvs : List (String × PVF)) : Except PyErr (List Nat) := do
  let m ← pvfNats (← pvfGet kvs "mantissa")
  let exp ← pvfInt (← pvfGet kvs "exp")
  let scale ← pvfGet kvs "scale" >>= pvfInt
  .ok ((exp <<< 5 ||| scale <<< 3 ||| m.length) :: m)

/-- `_MakeMeter(args)`: two packed bytes, mantissa, optional time delta,
optional second mantissa.  Note the source computes
`(args["unit"] & 4) << 7` — shifting bit 2 to bit *9*, past the top of a
byte — which is embedded verbatim. -/
def MakeMeter (kvs : List (String × PVF)) : Except PyErr (List Nat) := do
  let unit ← pvfGet kvs "unit" >>= pvfInt
  let rate ← pvfGet kvs "rate" >>= pvfInt
  let ty ← pvfGet kvs "type" >>= pvfInt
  let exp ← pvfGet kvs "exp" >>= pvfInt
  let mantissa ← pvfGet kvs "mantissa" >>= pvfNats
  let c1 := (unit &&& 4) <<< 7 ||| rate <<< 5 ||| (ty &&& 0x1f)
  let c2 := exp <<< 5 ||| (unit &&& 3) <<< 3 ||| mantissa.length
  let delta ← if pvfHas kvs "dt" then do
      let dt ← pvfGet kvs "dt" >>= pvfInt
      pure [dt >>> 8, dt &&& 0xff]
    else pure []
  let m2 ← if pvfHas kvs "mantissa2" then pvfGet kvs "mantissa2" >>= pvfNats
    else pure []
  .ok ([c1, c2] ++ mantissa ++ delta ++ m2)

/-- One iteration of the `for t in table` loop of `AssembleCommand`:
look up `args[name]` (`KeyError` when missing) and emit bytes per type tag.
Branches the source guards with `assert False` ('S' and the catch-all) are
`assertError`; a value of the wrong Python shape for the tag's arithmetic
or concatenation is a `TypeError`. -/
def asmField (args : List (String × PV)) (t : FieldDescr) (data : List Nat) :
    Except PyErr (List Nat) := do
  let v ← dictGet args t.name
  match t.kind, v with
  | 'B', .int n => .ok (data ++ [n.toNat])
  | 'W', .int n => .ok (data ++ [(n.toNat >>> 8) &&& 0xff, n.toNat &&& 0xff])
  | 'Y', .pyNone => .ok data
  | 'Y', .int n => .ok (data ++ [n.toNat])
  | 'N', _ => .ok (data ++ [1])
  | 'K', .nats v =>
    if v.length ≠ 16 then .error .assertError else .ok (data ++ v)
  | 'D', .nats v => .ok (data ++ v)
  | 'S', _ => .error .assertError
  | 'L', .nats v => .ok (data ++ v)
  | 'C', .nats v => do
    let d ← MakeDate v
    .ok (data ++ d)
  | 'O', .nats v =>
    -- a bad nonce length is only logged; the bytes are appended regardless
    .ok (data ++ v)
  | 'V', .dict kvs => do
    let size ← pvfGet kvs "size" >>= pvfInt
    let value ← pvfGet kvs "value" >>= pvfInt
    .ok (data ++ size ::
         (List.range size).reverse.map (fun i => (value >>> (8 * i)) &&& 0xff))
  | 'X', .dict kvs => do
    let d ← MakeSensor kvs
    .ok (data ++ d)
  | 'M', .dict kvs => do
    let d ← MakeMeter kvs
    .ok (data ++ d)
  | 'F', .dict kvs => do
    let text ← pvfGet kvs "text" >>= pvfNats
    let encoding ← pvfGet kvs "encoding" >>= pvfInt
    .ok (data ++ (encoding <<< 5 ||| text.length) :: text)
  | 'R', .dict kvs => do
    let size ← pvfGet kvs "size" >>= pvfInt
    let value ← pvfGet kvs "value" >>= pvfInt
    .ok (data ++ (List.range size).map (fun i => (value >>> (8 * i)) &&& 0xff))
  | 'B', _ | 'W', _ | 'Y', _ | 'K', _ | 'D', _ | 'L', _ | 'C', _ | 'O', _
  | 'V', _ | 'X', _ | 'M', _ | 'F', _ | 'R', _ => .error .typeError
  | _, _ => .error .assertError

/-- The loop of `AssembleCommand` folded over the table. -/
def asmFields (args : List (String × PV)) :
    List FieldDescr → List Nat → Except PyErr (List Nat)
  | [], data => .ok data
  | t :: ts, data => do
    let data ← asmField args t data
    asmFields args ts data

/-- `AssembleCommand(cmd0, cmd1, args)`: table lookup (the source's
`assert table is not None` fails loudly on a missing entry), then the
two-byte header followed by the per-field bytes. -/
def AssembleCommand (tbl : SubcmdTable) (cmd0 cmd1 : Nat)
    (args : List (String × PV)) : Except PyErr (List Nat) :=
  match tbl (cmd0 * 256 + cmd1) with
  | none => .error .assertError
  | some table => asmFields args table [cmd0, cmd1]

/-! ## Helper lemmas -/

theorem cryptGo_length (E : List Nat → List Nat) (d : List Nat) :
    ∀ (iv : List Nat) (i : Nat), (cryptGo E d iv i).length = d.length := by
  induction d with
  | nil => intro iv i; rfl
  | cons x xs ih =>
    intro iv i
    simp only [cryptGo, List.length_cons]
    exact congrArg (· + 1) (ih _ _)

theorem cryptGo_involution (E : List Nat → List Nat) (d : List Nat) :
    ∀ (iv : List Nat) (i : Nat), cryptGo E (cryptGo E d iv i) iv i = d := by
  induction d with
  | nil => intro iv i; rfl
  | cons x xs ih =>
    intro iv i
    simp only [cryptGo]
    rw [Nat.xor_cancel_right, ih]

theorem macGo_length (E : List Nat → List Nat) (buf : List Nat)
    (hE : ∀ b, (E b).length = 16) (k : Nat) :
    ∀ (auth : List Nat) (x : Nat), auth.length = 16 →
      (macGo E buf k auth x).length = 16 := by
  induction k with
  | zero => intro auth x h; exact h
  | succ n ih => intro auth x _; exact ih _ _ (hE _)

theorem computeMAC_length (F : List Nat → List Nat → List Nat)
    (key data iv : List Nat) (sub src dst : Nat)
    (hE : ∀ b, (F key b).length = 16) :
    (ComputeMAC F key data iv sub src dst).length = 8 := by
  unfold ComputeMAC
  rw [List.length_take, macGo_length _ _ hE _ _ _ (hE _)]
  rfl

theorem zip_self_any_bne (l : List Nat) :
    (l.zip l).any (fun p => p.1 != p.2) = false := by
  induction l with
  | nil => rfl
  | cons x xs ih => simp [List.zip_cons_cons, ih]

theorem take_append_length {α : Type} (l1 l2 : List α) (n : Nat)
    (h : l1.length = n) : (l1 ++ l2).take n = l1 := by
  subst h; simp

theorem drop_append_length {α : Type} (l1 l2 : List α) (n : Nat)
    (h : l1.length = n) : (l1 ++ l2).drop n = l2 := by
  subst h; simp

theorem getD_append_length (l1 l2 : List Nat) (n : Nat)
    (h : l1.length = n) (d : Nat) : (l1 ++ l2).getD n d = l2.getD 0 d := by
  subst h
  rw [List.getD_append_right _ _ _ _ le_rfl, Nat.sub_self]

/-! ## Claim theorems -/

/-- C10: `EnqueueMessage(message)` appends the message to the tail of the
outbound queue and leaves every other part of the session state — the
crypter and both pieces of nonce state — unchanged. -/
theorem enqueueMessage_appends_and_preserves_rest
    (s : SecureQueue) (message : List Nat) :
    (s.EnqueueMessage message).queue = s.queue ++ [message] ∧
    (s.EnqueueMessage message).crypter = s.crypter ∧
    (s.EnqueueMessage message).nonce_outbound = s.nonce_outbound ∧
    (s.EnqueueMessage message).nonce_outbound_requested
      = s.nonce_outbound_requested :=
  ⟨rfl, rfl, rfl, rfl⟩

/-- C5 (code bug evaluation): the negative branch of `_GetSignedValue`
adds Python's `~d = -(d + 1)` instead of the byte complement, so the
spec's example mantissa `[0xFF, 0x38]` decodes to `65592`, not `-200`. -/
theorem getSignedValue_negative_mantissa_wrong :
    GetSignedValue [0xFF, 0x38] = .ok 65592 ∧ (65592 : Int) ≠ -200 := by
  exact ⟨rfl, by decide⟩

/-- C6 (code bug evaluation): on insufficient remaining bytes,
`_ParseStringWithLength` and `_ParseValue` read the length byte with no
bounds check and raise `IndexError`, and `_ParseDate`'s failure branch
returns a bare int whose unpacking in `ParseCommand` raises `TypeError` —
none of them produce the explicit `(cursor, None)` failure outcome. -/
theorem truncated_input_decoders_raise :
    ParseStringWithLength [] 0 = .error .indexError ∧
    ParseValue [] 0 = .error .indexError ∧
    ParseDate [0, 1, 2] 0 = .error .typeError := by
  exact ⟨rfl, rfl, rfl⟩

/-- C1 (code bug evaluation): `ProcessReceivedNonce`'s emptiness test is
inverted (`if len(self._queue) != 0: return None`), so with one message
queued the call stores the nonce, returns nothing and releases nothing,
and with an empty queue it raises `IndexError` from `pop(0)`. -/
theorem processReceivedNonce_releases_nothing :
    SecureQueue.ProcessReceivedNonce
      ⟨[[0x25, 0x01, 0xFF]], ⟨List.replicate 16 1, List.replicate 16 2⟩,
       List.replicate 8 0, false, 2, 1⟩
      [1, 2, 3, 4, 5, 6, 7, 8]
      = .ok (⟨[[0x25, 0x01, 0xFF]],
              ⟨List.replicate 16 1, List.replicate 16 2⟩,
              [1, 2, 3, 4, 5, 6, 7, 8], false, 2, 1⟩, none) ∧
    SecureQueue.ProcessReceivedNonce
      ⟨[], ⟨List.replicate 16 1, List.replicate 16 2⟩,
       List.replicate 8 0, false, 2, 1⟩
      [1, 2, 3, 4, 5, 6, 7, 8]
      = .error .indexError := by
  exact ⟨rfl, rfl⟩

/-- C7 (code bug evaluation): with a key-rotation command
(`Security / NetworkKeySet` carrying a fresh 16-byte key) at the head of
the queue, `ProcessReceivedNonce` returns no wrapped message at all and
leaves the session crypter untouched — the wrap-then-rekey sequence of the
claim never runs, because the inverted emptiness test returns `None`
whenever anything is queued. -/
theorem processReceivedNonce_keyrotation_never_wraps_or_rekeys :
    SecureQueue.ProcessReceivedNonce
      ⟨[[Security, Security_NetworkKeySet] ++ List.replicate 16 9],
       ⟨List.replicate 16 1, List.replicate 16 2⟩,
       List.replicate 8 0, false, 2, 1⟩
      [8, 7, 6, 5, 4, 3, 2, 1]
      = .ok (⟨[[Security, Security_NetworkKeySet] ++ List.replicate 16 9],
              ⟨List.replicate 16 1, List.replicate 16 2⟩,
              [8, 7, 6, 5, 4, 3, 2, 1], false, 2, 1⟩, none) := by
  rfl

/-- C2: `ParseCommand` on a message of length at least 2 whose leading
(classId, cmdId) pair has no table entry returns the `UnknownCommand`
marker (the source's `[]`) and raises nothing. -/
theorem parseCommand_unknown_command (tbl : SubcmdTable) (m : List Nat)
    (hlen : 2 ≤ m.length)
    (hmiss : tbl (m.getD 0 0 * 256 + m.getD 1 0) = none) :
    ParseCommand tbl m = .ok .unknown := by
  unfold ParseCommand GetParameterDescriptors
  rw [if_neg (by omega), hmiss]

/-- Witness for C2 at the empty table and the message `[0, 0]`. -/
theorem parseCommand_unknown_command_witness :
    2 ≤ ([0, 0] : List Nat).length ∧
    ParseCommand (fun _ => none) [0, 0] = .ok .unknown :=
  ⟨by decide, parseCommand_unknown_command (fun _ => none) [0, 0] (by decide) rfl⟩

/-- C3 (code bug evaluation): the encode→decode round trip fails on a
meter field: assembling a meter record with a one-byte mantissa and no
time delta yields the frame `[50, 1, 0, 1, 5]`, and `ParseCommand` rejects
it with the malformed marker because `_ParseMeter` tests
`index + size >= len(m)` (not `>`), refusing a mantissa that ends exactly
at the end of the message. -/
theorem meter_roundtrip_fails :
    AssembleCommand
      (fun k => if k = 50 * 256 + 1 then some [⟨'M', "m"⟩] else none) 50 1
      [("m", PV.dict
        [("type", .int 0), ("unit", .int 0), ("exp", .int 0),
         ("rate", .int 0), ("mantissa", .nats [5]), ("_value", .rat 5)])]
      = .ok [50, 1, 0, 1, 5] ∧
    ParseCommand
      (fun k => if k = 50 * 256 + 1 then some [⟨'M', "m"⟩] else none)
      [50, 1, 0, 1, 5]
      = .ok .malformed := by
  exact ⟨rfl, rfl⟩

/-- C8: the keystream transform `Crypt` is an involution — the keystream
depends only on the cipher, the IV and the byte position, never on the
data, so XORing twice restores the input; the same function both encrypts
and decrypts. -/
theorem crypt_involution (F : List Nat → List Nat → List Nat)
    (key data iv : List Nat) (_hkey : key.length = 16)
    (_hiv : iv.length = 16) :
    Crypt F key (Crypt F key data iv) iv = data :=
  cryptGo_involution (F key) data iv 0

/-- Witness for C8 with a constant block cipher, the zero key and a
concrete IV and message. -/
theorem crypt_involution_witness :
    (List.replicate 16 0 : List Nat).length = 16 ∧
    (List.replicate 16 3 : List Nat).length = 16 ∧
    Crypt (fun _ _ => List.replicate 16 7) (List.replicate 16 0)
      (Crypt (fun _ _ => List.replicate 16 7) (List.replicate 16 0)
        [1, 2, 3] (List.replicate 16 3))
      (List.replicate 16 3) = [1, 2, 3] :=
  ⟨by decide, by decide,
   crypt_involution _ (List.replicate 16 0) [1, 2, 3] (List.replicate 16 3)
     (by decide) (by decide)⟩

theorem except_bind_ok {α β : Type} (a : α) (f : α → Except PyErr β) :
    (Except.ok a : Except PyErr α).bind f = f a := rfl

theorem bind_ok_monad {α β : Type} (a : α) (f : α → Except PyErr β) :
    (Except.ok a : Except PyErr α) >>= f = f a := rfl

/-- C9: a `Wrap` output is
`randomSeed(8) ‖ ciphertext ‖ nonceEcho(1) ‖ mac(8)`, where the ciphertext
is the encryption of the payload prefixed by one zero sequence byte; its
lengths are `payload + 1` for the ciphertext and hence `payload + 18`
overall. -/
theorem wrap_layout (F : List Nat → List Nat → List Nat) (c : CrypterObj)
    (payload nonce random : List Nat) (sub src dst : Nat)
    (hn : nonce.length = 8) (hr : random.length = 8)
    (hF : ∀ b, (F c.auth_key b).length = 16) :
    Crypter.Wrap F c payload nonce random sub src dst
      = .ok (random
          ++ Crypt F c.crypt_key (0 :: payload) (random ++ nonce)
          ++ [nonce.getD 0 0]
          ++ ComputeMAC F c.auth_key
               (Crypt F c.crypt_key (0 :: payload) (random ++ nonce))
               (random ++ nonce) sub src dst) ∧
    (Crypt F c.crypt_key (0 :: payload) (random ++ nonce)).length
      = payload.length + 1 ∧
    (ComputeMAC F c.auth_key
        (Crypt F c.crypt_key (0 :: payload) (random ++ nonce))
        (random ++ nonce) sub src dst).length = 8 ∧
    (random
       ++ Crypt F c.crypt_key (0 :: payload) (random ++ nonce)
       ++ [nonce.getD 0 0]
       ++ ComputeMAC F c.auth_key
            (Crypt F c.crypt_key (0 :: payload) (random ++ nonce))
            (random ++ nonce) sub src dst).length = payload.length + 18 := by
  have hencl : (Crypt F c.crypt_key (0 :: payload) (random ++ nonce)).length
      = payload.length + 1 := by
    unfold Crypt; rw [cryptGo_length]; rfl
  have hmacl : (ComputeMAC F c.auth_key
      (Crypt F c.crypt_key (0 :: payload) (random ++ nonce))
      (random ++ nonce) sub src dst).length = 8 :=
    computeMAC_length F c.auth_key _ _ sub src dst hF
  refine ⟨?_, hencl, hmacl, ?_⟩
  · simp only [Crypter.Wrap]
    rw [if_pos ⟨hr, hn⟩]
    have h1 : pySlice (random ++ nonce) 0 8 = random := by
      unfold pySlice
      rw [List.drop_zero]
      exact take_append_length _ _ _ hr
    rw [h1]
  · simp only [List.length_append, List.length_cons, List.length_nil]
    rw [hencl, hmacl, hr]
    omega

/-- Witness for C9 with a constant block cipher and concrete inputs; the
wrapped bytes are spelled out fully evaluated. -/
theorem wrap_layout_witness :
    ([0, 0, 0, 0, 0, 0, 0, 0] : List Nat).length = 8 ∧
    (∀ b : List Nat,
      ((fun _ _ => List.replicate 16 0) (List.replicate 16 0 : List Nat) b).length
        = 16) ∧
    Crypter.Wrap (fun _ _ => List.replicate 16 0)
      ⟨List.replicate 16 0, List.replicate 16 0⟩ [9]
      [0, 0, 0, 0, 0, 0, 0, 0] [0, 0, 0, 0, 0, 0, 0, 0] 3 4 5
      = .ok [0, 0, 0, 0, 0, 0, 0, 0, 0, 9, 0, 0, 0, 0, 0, 0, 0, 0, 0] :=
  ⟨rfl, fun _ => rfl,
   (wrap_layout (fun _ _ => List.replicate 16 0)
     ⟨List.replicate 16 0, List.replicate 16 0⟩ [9]
     [0, 0, 0, 0, 0, 0, 0, 0] [0, 0, 0, 0, 0, 0, 0, 0] 3 4 5
     rfl rfl (fun _ => rfl)).1⟩

/-- C4: `Unwrap` inverts `Wrap` — for a crypter derived from any network
key and any block cipher mapping 16-byte states to 16-byte states, the
wrapped message unwraps (nonce echo and MAC both pass) to exactly the
original payload. -/
theorem wrap_unwrap_roundtrip (F : List Nat → List Nat → List Nat)
    (key payload nonce random : List Nat) (sub src dst : Nat)
    (_hkey : key.length = 16) (hn : nonce.length = 8) (hr : random.length = 8)
    (hF : ∀ k b, (F k b).length = 16) :
    (Crypter.Wrap F (MakeCrypter F key) payload nonce random sub src dst).bind
        (fun w => Crypter.Unwrap F (MakeCrypter F key) w nonce sub src dst)
      = .ok (some payload) := by
  cases nonce with
  | nil => exact absurd hn (by decide)
  | cons a t =>
    rw [(wrap_layout F (MakeCrypter F key) payload (a :: t) random sub src dst
          hn hr (fun b => hF _ b)).1, except_bind_ok,
        show (a :: t).getD 0 0 = a from rfl]
    generalize hencdef :
      Crypt F (MakeCrypter F key).crypt_key (0 :: payload) (random ++ a :: t)
        = enc
    have henclen : enc.length = payload.length + 1 := by
      rw [← hencdef]; unfold Crypt; rw [cryptGo_length]; rfl
    generalize hmacdef :
      ComputeMAC F (MakeCrypter F key).auth_key enc (random ++ a :: t)
        sub src dst = mac
    have hmaclen : mac.length = 8 := by
      rw [← hmacdef]
      exact computeMAC_length F _ enc (random ++ a :: t) sub src dst
        (fun b => hF _ b)
    have hassoc : random ++ enc ++ [a] ++ mac
        = (random ++ enc) ++ ([a] ++ mac) := List.append_assoc _ _ _
    have hassoc2 : random ++ enc ++ [a] ++ mac
        = random ++ (enc ++ ([a] ++ mac)) := by
      simp only [List.append_assoc]
    have hwlen : (random ++ enc ++ [a] ++ mac).length = payload.length + 18 := by
      simp only [List.length_append, List.length_cons, List.length_nil]
      rw [hr, henclen, hmaclen]
      omega
    have hget9 : pyGetNeg (random ++ enc ++ [a] ++ mac) 9 = .ok a := by
      unfold pyGetNeg
      rw [if_neg (by rw [hwlen]; omega)]
      rw [hwlen, show payload.length + 18 - 9 = payload.length + 9 from by omega,
          hassoc,
          getD_append_length (random ++ enc) ([a] ++ mac) (payload.length + 9)
            (by simp only [List.length_append]; rw [hr, henclen]; omega) 0]
      rfl
    have hget0 : pyGet (a :: t) 0 = .ok a := by
      unfold pyGet
      rw [dif_pos (by simp : 0 < (a :: t).length)]
      rfl
    have hdrop8 : (random ++ enc ++ [a] ++ mac).drop
        ((random ++ enc ++ [a] ++ mac).length - 8) = mac := by
      rw [hwlen, show payload.length + 18 - 8 = payload.length + 10 from by omega]
      exact drop_append_length _ _ _
        (by simp only [List.length_append, List.length_cons, List.length_nil]
            rw [hr, henclen]; omega)
    have hslice0 : pySlice (random ++ enc ++ [a] ++ mac) 0 8 = random := by
      unfold pySlice
      rw [List.drop_zero, show (8 : Nat) - 0 = 8 from rfl, hassoc2]
      exact take_append_length _ _ _ hr
    have hslice8 : pySlice (random ++ enc ++ [a] ++ mac) 8
        (8 + ((random ++ enc ++ [a] ++ mac).length - 17)) = enc := by
      unfold pySlice
      rw [hwlen,
          show 8 + (payload.length + 18 - 17) - 8 = payload.length + 1 from by
            omega,
          hassoc2, drop_append_length random (enc ++ ([a] ++ mac)) 8 hr]
      exact take_append_length _ _ _ henclen
    simp only [Crypter.Unwrap, hget9, hget0, bind_ok_monad, hdrop8, hslice0,
               hslice8]
    rw [if_neg (fun h => h rfl), hmacdef, zip_self_any_bne]
    simp only [Bool.false_eq_true, if_false]
    rw [← hencdef]
    unfold Crypt
    rw [cryptGo_involution]
    rfl

/-- Witness for C4 with a constant block cipher, the zero network key and
a three-byte payload. -/
theorem wrap_unwrap_roundtrip_witness :
    (List.replicate 16 0 : List Nat).length = 16 ∧
    ([1, 2, 3, 4, 5, 6, 7, 8] : List Nat).length = 8 ∧
    ([8, 7, 6, 5, 4, 3, 2, 1] : List Nat).length = 8 ∧
    (Crypter.Wrap (fun _ _ => List.replicate 16 7)
        (MakeCrypter (fun _ _ => List.replicate 16 7) (List.replicate 16 0))
        [10, 20, 30] [1, 2, 3, 4, 5, 6, 7, 8] [8, 7, 6, 5, 4, 3, 2, 1]
        129 1 2).bind
      (fun w => Crypter.Unwrap (fun _ _ => List.replicate 16 7)
        (MakeCrypter (fun _ _ => List.replicate 16 7) (List.replicate 16 0))
        w [1, 2, 3, 4, 5, 6, 7, 8] 129 1 2)
      = .ok (some [10, 20, 30]) :=
  ⟨rfl, rfl, rfl,
   wrap_unwrap_roundtrip (fun _ _ => List.replicate 16 7)
     (List.replicate 16 0) [10, 20, 30] [1, 2, 3, 4, 5, 6, 7, 8]
     [8, 7, 6, 5, 4, 3, 2, 1] 129 1 2 rfl rfl rfl (fun _ _ => rfl)⟩

end PyZwaver
